import Mathlib

/-!
Verification of the RFM segmentation core of the Olist dashboard
(`src/dashboard.py`, function `perform_rfm_analysis` and its inner
`segment_customer`).

Shallow embedding conventions:

* An input row of the filtered order table carries the four fields the
  RFM core reads: `customer_id`, `order_id`, the purchase timestamp
  (`order_purchase_timestamp`, modelled as a natural number of seconds),
  and `total_spent` (`price + freight_value`, modelled as a rational
  number in place of the Python float; no claim below depends on
  floating-point rounding).
* `df.groupby(c)` sorts group keys ascending (pandas default
  `sort=True`), hence `customers` returns the sorted deduplicated list
  of customer ids and the result table is in that order.
* `pd.qcut(x, q=5, labels=L, duplicates="drop")` computes the 6 linear
  interpolation quantile edges of `x` at 0, 1/5, ..., 5/5, drops
  duplicate edges, and then, because an explicit 5-element label list is
  passed, raises `ValueError` ("Bin labels must be one fewer than the
  number of bin edges") whenever fewer than 6 distinct edges remain;
  otherwise a value `v` falls in the right-closed bin
  `(e_i, e_(i+1)]`, with `v = e_0` assigned to the first bin
  (`include_lowest`). `RfmError.binLabelMismatch` models that
  `ValueError`. On an empty column every quantile edge is the same
  (pandas: all `NaN`, collapsing to a single edge after the duplicate
  drop), so the same `ValueError` is raised; the embedding makes
  `quantileAt [] p = 0` for every `p`, which collapses the edge list the
  same way.
* `pd.cut(freq, bins=[0,1,2,3,4,inf], labels=[1,2,3,4,5])` is the fixed
  binning of `F_Score` with right-closed bins; a value outside every
  bin (only `freq = 0` is below the first edge) becomes `NaN`, and the
  later `.astype(int)` on line 151 would raise on it
  (`RfmError.intCastNaN`).
* `Timedelta.days` on the nonnegative difference of two timestamps is
  the whole-day floor, i.e. integer division of the second difference
  by 86400.
-/

namespace Olist

/-- One row of the filtered order table, restricted to the fields the
RFM core reads. -/
structure Row where
  customer_id : Nat
  order_id : Nat
  /-- order_purchase_timestamp, in seconds. -/
  ts : Nat
  /-- price + freight_value, as computed by preprocess_data. -/
  total_spent : ℚ
deriving DecidableEq, Repr

/-- The rows of one customer group of `df.groupby("customer_id")`. -/
def custRows (df : List Row) (c : Nat) : List Row :=
  df.filter (fun r => r.customer_id == c)

/-- The group keys of `df.groupby("customer_id")`: distinct customer
ids, sorted ascending (pandas groupby default `sort=True`). -/
def customers (df : List Row) : List Nat :=
  List.insertionSort (· ≤ ·) (df.map Row.customer_id).dedup

/-- latest_date: the column maximum of order_purchase_timestamp
(line 118). -/
def latestDate (df : List Row) : Nat :=
  (df.map Row.ts).foldl max 0

/-- Per-customer maximum purchase timestamp, `x.max()` in the recency
lambda (line 120). -/
def custMaxTs (df : List Row) (c : Nat) : Nat :=
  ((custRows df c).map Row.ts).foldl max 0

/-- Recency of a customer: `(latest_date - x.max()).days` (line 120),
the whole-day floor of the timestamp difference. -/
def recency (df : List Row) (c : Nat) : Int :=
  ((latestDate df : Int) - (custMaxTs df c : Int)) / 86400

/-- Frequency of a customer: `nunique` of its order_id values
(line 126). -/
def frequency (df : List Row) (c : Nat) : Nat :=
  ((custRows df c).map Row.order_id).dedup.length

/-- Monetary of a customer: sum of its total_spent values (line 132). -/
def monetary (df : List Row) (c : Nat) : ℚ :=
  ((custRows df c).map Row.total_spent).sum

/-- Linear-interpolation quantile of a sorted list at probability `p`,
as pandas `Series.quantile` computes it: with `h = (n - 1) * p`, the
value is `s[floor h] + (h - floor h) * (s[floor h + 1] - s[floor h])`. -/
def quantileAt (s : List ℚ) (p : ℚ) : ℚ :=
  let h : ℚ := ((s.length : ℚ) - 1) * p
  let lo : ℤ := ⌊h⌋
  let vlo : ℚ := s.getD lo.toNat 0
  let vhi : ℚ := s.getD (lo.toNat + 1) vlo
  vlo + (h - (lo : ℚ)) * (vhi - vlo)

/-- The bin edges `pd.qcut(xs, q=5, duplicates="drop")` works with: the
quantiles of `xs` at 0, 1/5, ..., 5/5, with duplicate edges dropped. -/
def qcutEdges (xs : List ℚ) : List ℚ :=
  ((List.range 6).map
    (fun i : ℕ => quantileAt (List.insertionSort (· ≤ ·) xs) ((i : ℚ) / 5))).dedup

/-- Bin index of a value among right-closed bins over `edges`
(`searchsorted` side left, with `include_lowest` sending the minimum
into the first bin): a value `v` with `edges[i] < v ≤ edges[i+1]` lands
in bin `i`, and `v = edges[0]` in bin 0. -/
def binIndex (edges : List ℚ) (v : ℚ) : Nat :=
  if (edges.takeWhile (fun e => decide (e < v))).length = 0 then 0
  else (edges.takeWhile (fun e => decide (e < v))).length - 1

/-- Label assigned by `pd.qcut(xs, q=5, labels, duplicates="drop")` to
value `v`, once the edge count has been checked. -/
def qcutScore (xs : List ℚ) (labels : List Int) (v : ℚ) : Int :=
  labels.getD (binIndex (qcutEdges xs) v) 0

/-- F_Score binning (lines 144-146):
`pd.cut(freq, bins=[0,1,2,3,4,inf], labels=[1,2,3,4,5])` with
right-closed bins; `none` is the `NaN` produced for a value in no bin
(only possible for `freq = 0`, below the first edge). -/
def fScoreCut (freq : Nat) : Option Int :=
  if freq = 0 then none
  else if freq ≤ 1 then some 1
  else if freq ≤ 2 then some 2
  else if freq ≤ 3 then some 3
  else if freq ≤ 4 then some 4
  else some 5

/-- segment_customer (lines 154-164), applied row-wise to RFM_Score. -/
def segment_customer (rfm : Int) : String :=
  if 12 ≤ rfm then "Champions"
  else if 9 ≤ rfm ∧ rfm < 12 then "Loyal Customers"
  else if 6 ≤ rfm ∧ rfm < 9 then "Potential Loyalists"
  else if 3 ≤ rfm ∧ rfm < 6 then "At Risk"
  else "Lost Customers"

/-- Failure modes of the pipeline.

`binLabelMismatch` is the pandas `ValueError` ("Bin labels must be one
fewer than the number of bin edges") raised by `pd.qcut` when
`duplicates="drop"` leaves fewer bin edges than the 5 explicit labels
require (lines 141 and 148); `intCastNaN` is the `ValueError` raised by
`.astype(int)` on a `NaN` score (line 151).

`emptyInput` is modelled from the spec: the spec names an
`EmptyInputError` for zero-row input, but no such error class or raise
statement exists anywhere in `src/dashboard.py`; the constructor exists
only so that statements can compare the behaviour of the code against
the error kind the spec prescribes. No path of the embedding below
produces it. -/
inductive RfmError
  | emptyInput
  | binLabelMismatch
  | intCastNaN
deriving DecidableEq, Repr

deriving instance DecidableEq for Except

/-- One row of the result table rfm_df. -/
structure OutRow where
  customer_id : Nat
  Recency : Int
  Frequency : Nat
  Monetary : ℚ
  R_Score : Int
  F_Score : Int
  M_Score : Int
  RFM_Score : Int
  Segment : String
deriving DecidableEq, Repr

/-- The Recency column of rfm_df, in table (sorted customer id) order,
cast to the rationals qcut treats it as. -/
def recXs (df : List Row) : List ℚ :=
  (customers df).map (fun c => ((recency df c : ℤ) : ℚ))

/-- The Monetary column of rfm_df, in table (sorted customer id)
order. -/
def monXs (df : List Row) : List ℚ :=
  (customers df).map (fun c => monetary df c)

/-- The fully scored and segmented result row of one customer
(lines 141-166), meaningful once the qcut edge checks and the
`astype(int)` check of `perform_rfm_analysis` have passed. -/
def scoreRow (df : List Row) (c : Nat) : OutRow :=
  let r := recency df c
  let f := frequency df c
  let m := monetary df c
  let rs := qcutScore (recXs df) [5, 4, 3, 2, 1] ((r : ℤ) : ℚ)
  let fs := (fScoreCut f).getD 0
  let ms := qcutScore (monXs df) [1, 2, 3, 4, 5] m
  { customer_id := c, Recency := r, Frequency := f, Monetary := m,
    R_Score := rs, F_Score := fs, M_Score := ms,
    RFM_Score := rs + fs + ms,
    Segment := segment_customer (rs + fs + ms) }

/-- perform_rfm_analysis (lines 116-168) as a fallible table-to-table
transform. The error checks mirror the order in which the Python raises:
the R_Score qcut (line 141), then the M_Score qcut (line 148), then the
`astype(int)` of a `NaN` F_Score (line 151, reachable only for a
customer with zero distinct orders, which the grouping makes
impossible). -/
def perform_rfm_analysis (df : List Row) : Except RfmError (List OutRow) :=
  if (qcutEdges (recXs df)).length ≠ 6 then .error .binLabelMismatch
  else if (qcutEdges (monXs df)).length ≠ 6 then .error .binLabelMismatch
  else if (customers df).any (fun c => frequency df c == 0) then .error .intCastNaN
  else .ok ((customers df).map (scoreRow df))

/-- The module-level state of dashboard.py that could, in principle,
leak between calls: the globally loaded table. `perform_rfm_analysis`
never reads or writes it (its body mentions only its parameter `df` and
fresh local frames), so the stateful rendering of a call returns the
state unchanged and a result computed from the argument alone. -/
structure ModuleEnv where
  main_df : List Row
deriving DecidableEq, Repr

/-- A call to perform_rfm_analysis in the presence of the module state:
the body contains no global statement and no assignment to any module
variable, so the state passes through untouched and the result depends
only on `df`. -/
def perform_rfm_analysis_st (env : ModuleEnv) (df : List Row) :
    Except RfmError (List OutRow) × ModuleEnv :=
  (perform_rfm_analysis df, env)

/-- A call to perform_rfm_analysis that also reports the value of the
argument table object after the call. Every pandas operation the body
applies to `df` (`groupby`, `agg`, `reset_index`, `merge`) allocates a
fresh frame; the in-place renames (lines 122, 128, 134) and the column
assignments (lines 141-166) target only those fresh derived frames, so
the argument table is returned unchanged. -/
def perform_rfm_analysis_frame (df : List Row) :
    Except RfmError (List OutRow) × List Row :=
  (perform_rfm_analysis df, df)

/-- Rank of a segment label in the value ordering
Lost Customers < At Risk < Potential Loyalists < Loyal Customers
< Champions. -/
def segmentRank (s : String) : Nat :=
  if s = "Lost Customers" then 0
  else if s = "At Risk" then 1
  else if s = "Potential Loyalists" then 2
  else if s = "Loyal Customers" then 3
  else 4

/-- A two-row table of two distinct customers who purchased at the very
same timestamp: both recencies are 0, so every recency quantile edge
coincides. -/
def degenerateDf : List Row :=
  [⟨1, 101, 50, 10⟩, ⟨2, 102, 50, 20⟩]

/-! ### Helper lemmas -/

lemma mem_customers {df : List Row} {c : Nat} :
    c ∈ customers df ↔ ∃ r ∈ df, r.customer_id = c := by
  unfold customers
  rw [(List.perm_insertionSort _ _).mem_iff, List.mem_dedup, List.mem_map]

lemma mem_custRows {df : List Row} {c : Nat} {r : Row} :
    r ∈ custRows df c ↔ r ∈ df ∧ r.customer_id = c := by
  unfold custRows
  rw [List.mem_filter, beq_iff_eq]

lemma frequency_pos {df : List Row} {c : Nat} (hc : c ∈ customers df) :
    1 ≤ frequency df c := by
  obtain ⟨r, hr, hrc⟩ := mem_customers.mp hc
  have hmem : r.order_id ∈ ((custRows df c).map Row.order_id).dedup :=
    List.mem_dedup.mpr (List.mem_map_of_mem _ (mem_custRows.mpr ⟨hr, hrc⟩))
  have := List.length_pos.mpr (List.ne_nil_of_mem hmem)
  unfold frequency
  omega

lemma ok_inv {df : List Row} {out : List OutRow}
    (h : perform_rfm_analysis df = .ok out) :
    (qcutEdges (recXs df)).length = 6 ∧ (qcutEdges (monXs df)).length = 6 ∧
    (∀ c ∈ customers df, frequency df c ≠ 0) ∧
    out = (customers df).map (scoreRow df) := by
  unfold perform_rfm_analysis at h
  split_ifs at h with h1 h2 h3
  refine ⟨not_not.mp h1, not_not.mp h2, ?_, (Except.ok.inj h).symm⟩
  intro c hc
  simp only [List.any_eq_true, beq_iff_eq, not_exists, not_and] at h3
  exact h3 c hc

lemma takeWhile_length_lt {α : Type} (p : α → Bool) :
    ∀ l : List α, (∃ x ∈ l, ¬ p x = true) → (l.takeWhile p).length < l.length := by
  intro l
  induction l with
  | nil => rintro ⟨x, hx, -⟩; cases hx
  | cons a l ih =>
    rintro ⟨x, hx, hpx⟩
    by_cases hpa : p a
    · rw [List.takeWhile_cons_of_pos hpa]
      rcases List.mem_cons.mp hx with rfl | hx
      · exact absurd hpa hpx
      · simpa using ih ⟨x, hx, hpx⟩
    · rw [List.takeWhile_cons_of_neg hpa]
      simp

lemma sorted_getD_last_ge {xs : List ℚ} {v : ℚ} (hv : v ∈ xs) :
    v ≤ (List.insertionSort (· ≤ ·) xs).getD (xs.length - 1) 0 := by
  have hperm := List.perm_insertionSort (· ≤ ·) xs
  have hlen : (List.insertionSort (· ≤ ·) xs).length = xs.length := hperm.length_eq
  have hvs : v ∈ List.insertionSort (· ≤ ·) xs := hperm.mem_iff.mpr hv
  obtain ⟨i, hi⟩ := List.mem_iff_get.mp hvs
  have hpos : 0 < xs.length := List.length_pos.mpr (List.ne_nil_of_mem hv)
  have hlast : xs.length - 1 < (List.insertionSort (· ≤ ·) xs).length := by omega
  have hilt : (i : Nat) < xs.length := by have := i.isLt; omega
  have hile : i ≤ (⟨xs.length - 1, hlast⟩ : Fin _) := by
    simp only [Fin.le_def]
    omega
  have hmono := (List.sorted_insertionSort (· ≤ ·) xs).rel_get_of_le hile
  rw [List.getD_eq_getElem _ _ hlast, ← hi]
  simpa [List.get_eq_getElem] using hmono


lemma quantileAt_one {s : List ℚ} (hs : 0 < s.length) :
    quantileAt s 1 = s.getD (s.length - 1) 0 := by
  have h2 : ⌊((s.length : ℚ) - 1) * 1⌋ = (s.length : ℤ) - 1 := by
    rw [show ((s.length : ℚ) - 1) * 1 = (((s.length : ℤ) - 1 : ℤ) : ℚ) by push_cast; ring]
    exact Int.floor_intCast _
  have h3 : ((s.length : ℤ) - 1).toNat = s.length - 1 := by omega
  simp only [quantileAt, h2, h3]
  have h4 : ((s.length : ℚ) - 1) * 1 - (((s.length : ℤ) - 1 : ℤ) : ℚ) = 0 := by
    push_cast; ring
  rw [h4, zero_mul, add_zero]

lemma le_quantileAt_one {xs : List ℚ} {v : ℚ} (hv : v ∈ xs) :
    v ≤ quantileAt (List.insertionSort (· ≤ ·) xs) 1 := by
  have hlen : (List.insertionSort (· ≤ ·) xs).length = xs.length :=
    (List.perm_insertionSort (· ≤ ·) xs).length_eq
  have hpos : 0 < xs.length := List.length_pos.mpr (List.ne_nil_of_mem hv)
  rw [quantileAt_one (by omega), hlen]
  exact sorted_getD_last_ge hv

lemma quantileAt_one_mem_qcutEdges (xs : List ℚ) :
    quantileAt (List.insertionSort (· ≤ ·) xs) 1 ∈ qcutEdges xs := by
  unfold qcutEdges
  rw [List.mem_dedup, List.mem_map]
  refine ⟨5, by simp, ?_⟩
  norm_num

lemma binIndex_lt_five {xs : List ℚ} {v : ℚ} (hv : v ∈ xs)
    (hlen : (qcutEdges xs).length = 6) : binIndex (qcutEdges xs) v < 5 := by
  have hmem := quantileAt_one_mem_qcutEdges xs
  have hle := le_quantileAt_one hv
  have hlt : ((qcutEdges xs).takeWhile (fun e => decide (e < v))).length <
      (qcutEdges xs).length := by
    refine takeWhile_length_lt _ _ ⟨_, hmem, ?_⟩
    simp only [decide_eq_true_eq]
    exact not_lt.mpr hle
  unfold binIndex
  split <;> omega

lemma qcutScore_mem {xs : List ℚ} {v : ℚ} (labels : List Int) (hv : v ∈ xs)
    (hlen : (qcutEdges xs).length = 6) (hlab : labels.length = 5) :
    qcutScore xs labels v ∈ labels := by
  have h := binIndex_lt_five hv hlen
  unfold qcutScore
  rw [List.getD_eq_getElem _ _ (by omega)]
  exact List.getElem_mem _

lemma mem_output {df : List Row} {out : List OutRow}
    (h : perform_rfm_analysis df = .ok out) {row : OutRow} (hrow : row ∈ out) :
    ∃ c ∈ customers df, row = scoreRow df c := by
  obtain ⟨-, -, -, hout⟩ := ok_inv h
  subst hout
  obtain ⟨c, hc, rfl⟩ := List.mem_map.mp hrow
  exact ⟨c, hc, rfl⟩

lemma label_bounds {x : Int}
    (hx : x ∈ ([5, 4, 3, 2, 1] : List Int) ∨ x ∈ ([1, 2, 3, 4, 5] : List Int)) :
    1 ≤ x ∧ x ≤ 5 := by
  rcases hx with hx | hx <;> simp only [List.mem_cons, List.not_mem_nil, or_false] at hx <;>
    rcases hx with rfl | rfl | rfl | rfl | rfl <;> decide

lemma fscore_getD_bounds {f : Nat} (hf : f ≠ 0) :
    1 ≤ (fScoreCut f).getD 0 ∧ (fScoreCut f).getD 0 ≤ 5 := by
  unfold fScoreCut
  split_ifs <;> simp_all

lemma segment_ne_lost {s : Int} (hs : 3 ≤ s) :
    segment_customer s ≠ "Lost Customers" := by
  unfold segment_customer
  split_ifs <;> first | decide | omega

lemma foldl_max_le_iff (l : List Nat) (init b : Nat) :
    l.foldl max init ≤ b ↔ init ≤ b ∧ ∀ x ∈ l, x ≤ b := by
  induction l generalizing init with
  | nil => simp
  | cons a l ih =>
    simp only [List.foldl_cons, ih, max_le_iff, List.forall_mem_cons]
    tauto

lemma le_foldl_max (l : List Nat) (init x : Nat) (hx : x ∈ l) :
    x ≤ l.foldl max init :=
  ((foldl_max_le_iff l init (l.foldl max init)).mp le_rfl).2 x hx

lemma custMaxTs_le_latestDate (df : List Row) (c : Nat) :
    custMaxTs df c ≤ latestDate df := by
  unfold custMaxTs latestDate
  rw [foldl_max_le_iff]
  refine ⟨Nat.zero_le _, ?_⟩
  intro x hx
  obtain ⟨r, hr, rfl⟩ := List.mem_map.mp hx
  exact le_foldl_max _ 0 _ (List.mem_map_of_mem _ (mem_custRows.mp hr).1)

/-! ### Claim theorems -/

/-- C1: segment_customer realises exactly the ordered threshold table,
as a pure total function on the integers: scores of 12 and above map to
Champions, [9,12) to Loyal Customers, [6,9) to Potential Loyalists,
[3,6) to At Risk, and everything below 3 to Lost Customers; the first
matching range wins. -/
theorem claim_segment_table (s : Int) :
    (12 ≤ s → segment_customer s = "Champions") ∧
    (9 ≤ s ∧ s < 12 → segment_customer s = "Loyal Customers") ∧
    (6 ≤ s ∧ s < 9 → segment_customer s = "Potential Loyalists") ∧
    (3 ≤ s ∧ s < 6 → segment_customer s = "At Risk") ∧
    (s < 3 → segment_customer s = "Lost Customers") := by
  unfold segment_customer
  refine ⟨?_, ?_, ?_, ?_, ?_⟩ <;> intro h <;> split_ifs <;> first | rfl | omega

/-- Witness for C1: the theorem applied at score 13. -/
theorem claim_segment_table_witness : segment_customer 13 = "Champions" :=
  (claim_segment_table 13).1 (by decide)

/-- C7: the F_Score binning uses the fixed boundaries of
`pd.cut(bins=[0,1,2,3,4,inf])`: frequency 1 maps to score 1, 2 to 2,
3 to 3, 4 to 4, and any frequency of 5 or more to 5. -/
theorem claim_fscore_fixed_bins (f : Nat) :
    (f = 1 → fScoreCut f = some 1) ∧ (f = 2 → fScoreCut f = some 2) ∧
    (f = 3 → fScoreCut f = some 3) ∧ (f = 4 → fScoreCut f = some 4) ∧
    (5 ≤ f → fScoreCut f = some 5) := by
  refine ⟨fun h => by subst h; rfl, fun h => by subst h; rfl,
    fun h => by subst h; rfl, fun h => by subst h; rfl, fun h => ?_⟩
  unfold fScoreCut
  split_ifs <;> first | rfl | omega

/-- Witness for C7: the theorem applied at frequency 6, which maps to
score 5. -/
theorem claim_fscore_fixed_bins_witness : fScoreCut 6 = some 5 :=
  (claim_fscore_fixed_bins 6).2.2.2.2 (by decide)

/-- C8: segment assignment depends on RFM_Score alone and is monotone
under the ranking Lost Customers < At Risk < Potential Loyalists <
Loyal Customers < Champions. -/
theorem claim_segment_monotone (a b : Int) (hab : a ≤ b) :
    segmentRank (segment_customer a) ≤ segmentRank (segment_customer b) := by
  unfold segment_customer
  split_ifs <;> first | decide | omega

/-- Witness for C8: the theorem applied at the pair 3 ≤ 12. -/
theorem claim_segment_monotone_witness :
    segmentRank (segment_customer 3) ≤ segmentRank (segment_customer 12) :=
  claim_segment_monotone 3 12 (by decide)

/-- C3: the code, contrary to spec and to the evident intent of
`duplicates="drop"`, does crash on a degenerate value distribution: on
a table whose two customers share one purchase timestamp (identical
recency 0 for all customers), the R_Score qcut collapses to a single
bin edge and raises the label-mismatch ValueError instead of returning
a score table. -/
theorem claim_degenerate_distribution_raises :
    perform_rfm_analysis degenerateDf = .error .binLabelMismatch := by
  with_unfolding_all rfl

/-- C4 counterexample: on the empty table the pipeline does fail and
produces no result rows, but the error is the qcut label-mismatch
ValueError, not the EmptyInputError the spec prescribes (no such error
exists in the code). -/
theorem claim_empty_input_not_empty_input_error :
    perform_rfm_analysis ([] : List Row) = .error .binLabelMismatch ∧
    perform_rfm_analysis ([] : List Row) ≠ .error .emptyInput := by
  constructor
  · with_unfolding_all rfl
  · with_unfolding_all decide

/-- C4 amended: on a zero-row input the pipeline fails (the quantile
edges of the empty recency column all coincide, so the R_Score qcut
raises its ValueError) and no partial result table is produced. -/
theorem claim_empty_input_fails :
    perform_rfm_analysis ([] : List Row) = .error .binLabelMismatch := by
  with_unfolding_all rfl

/-- C9: the pipeline is deterministic and stateless across calls: the
result never depends on the module state, a call leaves the module
state unchanged, and a second invocation on the same input returns the
identical output table. -/
theorem claim_pipeline_stateless (env env2 : ModuleEnv) (df : List Row) :
    (perform_rfm_analysis_st env df).1 = (perform_rfm_analysis_st env2 df).1 ∧
    (perform_rfm_analysis_st ((perform_rfm_analysis_st env df).2) df).1 =
      (perform_rfm_analysis_st env df).1 ∧
    (perform_rfm_analysis_st env df).2 = env :=
  ⟨rfl, rfl, rfl⟩

/-- C10: a call to the pipeline leaves the input table unchanged (every
row and column identical before and after) while returning the same
result as the pure transform. -/
theorem claim_input_unchanged (df : List Row) :
    (perform_rfm_analysis_frame df).2 = df ∧
    (perform_rfm_analysis_frame df).1 = perform_rfm_analysis df :=
  ⟨rfl, rfl⟩

/-- C2: on every input the pipeline accepts, each output row has all
three ordinal scores in [1,5], an RFM_Score equal to their sum and
hence in [3,15], and consequently never the Lost Customers segment. -/
theorem claim_rfm_score_range (df : List Row) (out : List OutRow)
    (h : perform_rfm_analysis df = .ok out) :
    ∀ row ∈ out,
      1 ≤ row.R_Score ∧ row.R_Score ≤ 5 ∧
      1 ≤ row.F_Score ∧ row.F_Score ≤ 5 ∧
      1 ≤ row.M_Score ∧ row.M_Score ≤ 5 ∧
      row.RFM_Score = row.R_Score + row.F_Score + row.M_Score ∧
      3 ≤ row.RFM_Score ∧ row.RFM_Score ≤ 15 ∧
      row.Segment ≠ "Lost Customers" := by
  intro row hrow
  obtain ⟨hrec, hmon, hfreq, hout⟩ := ok_inv h
  subst hout
  obtain ⟨c, hc, rfl⟩ := List.mem_map.mp hrow
  have hvr : ((recency df c : ℤ) : ℚ) ∈ recXs df := List.mem_map_of_mem _ hc
  have hvm : monetary df c ∈ monXs df := List.mem_map_of_mem _ hc
  have hR := label_bounds (Or.inl (qcutScore_mem [5, 4, 3, 2, 1] hvr hrec rfl))
  have hM := label_bounds (Or.inr (qcutScore_mem [1, 2, 3, 4, 5] hvm hmon rfl))
  have hF := fscore_getD_bounds (hfreq c hc)
  have e1 : (scoreRow df c).R_Score =
      qcutScore (recXs df) [5, 4, 3, 2, 1] ((recency df c : ℤ) : ℚ) := by
    simp only [scoreRow]
  have e2 : (scoreRow df c).F_Score = (fScoreCut (frequency df c)).getD 0 := by
    simp only [scoreRow]
  have e3 : (scoreRow df c).M_Score =
      qcutScore (monXs df) [1, 2, 3, 4, 5] (monetary df c) := by
    simp only [scoreRow]
  have e4 : (scoreRow df c).RFM_Score =
      (scoreRow df c).R_Score + (scoreRow df c).F_Score + (scoreRow df c).M_Score := by
    simp only [scoreRow]
  have e5 : (scoreRow df c).Segment =
      segment_customer ((scoreRow df c).RFM_Score) := by
    simp only [scoreRow]
  have hR1 : 1 ≤ (scoreRow df c).R_Score := by rw [e1]; exact hR.1
  have hR2 : (scoreRow df c).R_Score ≤ 5 := by rw [e1]; exact hR.2
  have hF1 : 1 ≤ (scoreRow df c).F_Score := by rw [e2]; exact hF.1
  have hF2 : (scoreRow df c).F_Score ≤ 5 := by rw [e2]; exact hF.2
  have hM1 : 1 ≤ (scoreRow df c).M_Score := by rw [e3]; exact hM.1
  have hM2 : (scoreRow df c).M_Score ≤ 5 := by rw [e3]; exact hM.2
  have h3 : 3 ≤ (scoreRow df c).RFM_Score := by rw [e4]; omega
  have h15 : (scoreRow df c).RFM_Score ≤ 15 := by rw [e4]; omega
  have hSeg : (scoreRow df c).Segment ≠ "Lost Customers" := by
    rw [e5]; exact segment_ne_lost h3
  exact ⟨hR1, hR2, hF1, hF2, hM1, hM2, e4, h3, h15, hSeg⟩

/-- C5: each output row of an accepted input carries a frequency equal
to the number of distinct order identifiers of that customer among the
input rows (not its row count), and that frequency is at least 1. -/
theorem claim_frequency_distinct_orders (df : List Row) (out : List OutRow)
    (h : perform_rfm_analysis df = .ok out) :
    ∀ row ∈ out,
      row.Frequency = ((df.filter
        (fun r => r.customer_id == row.customer_id)).map Row.order_id).toFinset.card ∧
      1 ≤ row.Frequency := by
  intro row hrow
  obtain ⟨c, hc, rfl⟩ := mem_output h hrow
  have e1 : (scoreRow df c).Frequency = frequency df c := by
    simp only [scoreRow]
  have e2 : (scoreRow df c).customer_id = c := by
    simp only [scoreRow]
  rw [e1, e2]
  refine ⟨?_, frequency_pos hc⟩
  rw [List.card_toFinset]
  rfl

/-- C6: each output row of an accepted input has a recency equal to the
whole-day floor of the difference between the latest purchase timestamp
of the whole input and the latest purchase timestamp of that customer;
it is never negative, and it is exactly 0 for a customer whose latest
purchase is the global latest. -/
theorem claim_recency_whole_days (df : List Row) (out : List OutRow)
    (h : perform_rfm_analysis df = .ok out) :
    ∀ row ∈ out,
      0 ≤ row.Recency ∧
      86400 * row.Recency ≤ (latestDate df : Int) - (custMaxTs df row.customer_id : Int) ∧
      (latestDate df : Int) - (custMaxTs df row.customer_id : Int) <
        86400 * (row.Recency + 1) ∧
      (custMaxTs df row.customer_id = latestDate df → row.Recency = 0) := by
  intro row hrow
  obtain ⟨c, hc, rfl⟩ := mem_output h hrow
  have e1 : (scoreRow df c).Recency = recency df c := by
    simp only [scoreRow]
  have e2 : (scoreRow df c).customer_id = c := by
    simp only [scoreRow]
  rw [e1, e2]
  have hle : (custMaxTs df c : Int) ≤ (latestDate df : Int) := by
    exact_mod_cast custMaxTs_le_latestDate df c
  have ha : 0 ≤ (latestDate df : Int) - (custMaxTs df c : Int) := by omega
  have hdef : recency df c =
      ((latestDate df : Int) - (custMaxTs df c : Int)) / 86400 := rfl
  have hdm := Int.ediv_add_emod ((latestDate df : Int) - (custMaxTs df c : Int)) 86400
  have hr0 : 0 ≤ ((latestDate df : Int) - (custMaxTs df c : Int)) % 86400 :=
    Int.emod_nonneg _ (by norm_num)
  have hrlt : ((latestDate df : Int) - (custMaxTs df c : Int)) % 86400 < 86400 :=
    Int.emod_lt_of_pos _ (by norm_num)
  rw [hdef]
  refine ⟨Int.ediv_nonneg ha (by norm_num), by omega, by omega, ?_⟩
  intro hEq
  rw [hEq] at hdm hr0 hrlt ⊢
  omega

/-- A five-customer table (one order per customer, purchases one day
apart, distinct totals) on which every quantile edge is distinct, so
the pipeline succeeds. -/
def w5 : List Row :=
  [⟨1, 101, 0, 10⟩, ⟨2, 102, 86400, 20⟩, ⟨3, 103, 172800, 30⟩,
   ⟨4, 104, 259200, 40⟩, ⟨5, 105, 345600, 50⟩]

/-- The variant of `w5` in which customer 5 placed its single order
(identifier 105) as two line items of 25 each: two input rows, one
distinct order identifier, same totals as `w5`. -/
def wdup : List Row :=
  [⟨1, 101, 0, 10⟩, ⟨2, 102, 86400, 20⟩, ⟨3, 103, 172800, 30⟩,
   ⟨4, 104, 259200, 40⟩, ⟨5, 105, 345600, 25⟩, ⟨5, 105, 345600, 25⟩]

/-- Output row of customer 1 on `w5` and `wdup`. -/
def w5row1 : OutRow := ⟨1, 4, 1, 10, 1, 1, 1, 3, "At Risk"⟩

/-- Output row of customer 5 on `w5` and `wdup`. -/
def w5row5 : OutRow := ⟨5, 0, 1, 50, 5, 1, 5, 11, "Loyal Customers"⟩

/-- The result table of the pipeline on `w5` (and on `wdup`). -/
def w5out : List OutRow :=
  [w5row1,
   ⟨2, 3, 1, 20, 2, 1, 2, 5, "At Risk"⟩,
   ⟨3, 2, 1, 30, 3, 1, 3, 7, "Potential Loyalists"⟩,
   ⟨4, 1, 1, 40, 4, 1, 4, 9, "Loyal Customers"⟩,
   w5row5]

/-- Witness for C2: the range theorem applied to the concrete run of
the pipeline on `w5`, at the row of customer 1. -/
theorem claim_rfm_score_range_witness :
    1 ≤ w5row1.R_Score ∧ w5row1.R_Score ≤ 5 ∧
    1 ≤ w5row1.F_Score ∧ w5row1.F_Score ≤ 5 ∧
    1 ≤ w5row1.M_Score ∧ w5row1.M_Score ≤ 5 ∧
    w5row1.RFM_Score = w5row1.R_Score + w5row1.F_Score + w5row1.M_Score ∧
    3 ≤ w5row1.RFM_Score ∧ w5row1.RFM_Score ≤ 15 ∧
    w5row1.Segment ≠ "Lost Customers" :=
  claim_rfm_score_range w5 w5out (by with_unfolding_all rfl) w5row1
    (by with_unfolding_all decide)

/-- Witness for C5: the frequency theorem applied to the concrete run
of the pipeline on `wdup`, at the row of customer 5, who has two input
rows under one distinct order identifier and frequency 1. -/
theorem claim_frequency_distinct_orders_witness :
    w5row5.Frequency = ((wdup.filter
      (fun r => r.customer_id == w5row5.customer_id)).map Row.order_id).toFinset.card ∧
    1 ≤ w5row5.Frequency :=
  claim_frequency_distinct_orders wdup w5out (by with_unfolding_all rfl) w5row5
    (by with_unfolding_all decide)

/-- Witness for C6: the recency theorem applied to the concrete run of
the pipeline on `w5`, at the row of customer 5, whose latest purchase
is the global latest and whose recency is 0. -/
theorem claim_recency_whole_days_witness :
    0 ≤ w5row5.Recency ∧
    86400 * w5row5.Recency ≤
      (latestDate w5 : Int) - (custMaxTs w5 w5row5.customer_id : Int) ∧
    (latestDate w5 : Int) - (custMaxTs w5 w5row5.customer_id : Int) <
      86400 * (w5row5.Recency + 1) ∧
    (custMaxTs w5 w5row5.customer_id = latestDate w5 → w5row5.Recency = 0) :=
  claim_recency_whole_days w5 w5out (by with_unfolding_all rfl) w5row5
    (by with_unfolding_all decide)

end Olist
